import Mathlib

/-!
Verification of the element-resolution core of the `tir` browser test
framework (`tir/technologies/core/base.py`).

The Python code works on a BeautifulSoup parse of the live page.  We embed
the DOM as a tree of nodes (`DomNode`), identify nodes found inside a
document by their child-index path from the root (`Path`), and translate
each method of `Base` that the claims touch into a Lean function over this
embedding.  Strings are embedded as lists of characters (`Str`) so that the
string-splitting done by `search_zindex` can be reasoned about directly.

External collaborators (the Selenium driver, the CSS-selector parser, the
script engine, live displayed-ness) are modelled as an explicit environment
(`Env`) of oracle functions; the live document is assumed to coincide with
the parsed snapshot, which is the situation all structural claims speak
about.  Python exceptions are modelled with `Except`: a raised exception is
an `Except.error` carrying the message string.
-/

namespace Tir

/-- Characters of a Python string. -/
abbrev Str := List Char

/-- A node inside a document, identified by the chain of child indexes
leading to it from the document root.  `[]` is the root itself. -/
abbrev Path := List Nat

/-- BeautifulSoup node: a tag element (name, attribute list, children) or a
`NavigableString` text node. -/
inductive DomNode where
  | elem (tag : Str) (attrs : List (Str × Str)) (children : List DomNode)
  | text (s : Str)
deriving Repr

/-- Children of a node; text nodes have none. -/
def DomNode.childrenOf : DomNode → List DomNode
  | .elem _ _ cs => cs
  | .text _ => []

/-- Attribute lookup in a tag's attribute list (a Python dict has unique
keys; we take the first binding). -/
def lookupAttr (attrs : List (Str × Str)) (key : Str) : Option Str :=
  match attrs.find? (fun kv => kv.1 = key) with
  | some kv => some kv.2
  | none => none

/-- The node reached from `n` by following the child-index path `p`. -/
def nodeAt? : DomNode → Path → Option DomNode
  | n, [] => some n
  | n, i :: p =>
    match (DomNode.childrenOf n)[i]? with
    | some c => nodeAt? c p
    | none => none

mutual
/-- All valid paths inside a node (the node itself included), listed in
document (pre-)order. -/
def allPaths : DomNode → List Path
  | .text _ => [[]]
  | .elem _ _ cs => [] :: allPathsChildren 0 cs

/-- Paths into the `i`-th, `i+1`-th, ... children. -/
def allPathsChildren : Nat → List DomNode → List Path
  | _, [] => []
  | i, c :: rest => (allPaths c).map (fun q => i :: q) ++ allPathsChildren (i + 1) rest
end

mutual
/-- BeautifulSoup `.text`: concatenation of all descendant strings in
document order. -/
def textOf : DomNode → Str
  | .text s => s
  | .elem _ _ cs => textOfChildren cs

def textOfChildren : List DomNode → Str
  | [] => []
  | c :: rest => textOf c ++ textOfChildren rest
end

/-- `.text` of the node at path `p` of `doc` (empty for an invalid path). -/
def textAt (doc : DomNode) (p : Path) : Str :=
  match nodeAt? doc p with
  | some n => textOf n
  | none => []

/-! ### CSS selectors

The selector strings used by the code (`"body"`, `".tmodaldialog,.ui-dialog"`,
arbitrary caller terms, and the literal `"div > *"`) are modelled by a small
selector language; parsing a selector string is an oracle of the
environment.  CSS selectors match tag elements only, never text nodes. -/

inductive Sel where
  /-- tag-name selector, e.g. `div` -/
  | stag (t : Str)
  /-- class selector, e.g. `.tmodaldialog` -/
  | scls (c : Str)
  /-- comma union, e.g. `.tmodaldialog,.ui-dialog` -/
  | sunion (a b : Sel)
  /-- the literal selector `div > *`: any element whose parent is a `div` -/
  | sdivChild

/-- Split a `class` attribute value on whitespace into single class names. -/
def splitWS (s : Str) : List Str :=
  (s.splitOnP (fun c => c.isWhitespace)).filter (fun w => !w.isEmpty)

/-- Does the element at (absolute) path `p` of `doc` match the selector? -/
def selMatchesAt (doc : DomNode) (sel : Sel) (p : Path) : Bool :=
  match sel with
  | .stag t =>
    match nodeAt? doc p with
    | some (.elem tg _ _) => tg = t
    | _ => false
  | .scls c =>
    match nodeAt? doc p with
    | some (.elem _ attrs _) =>
      match lookupAttr attrs ("class".data) with
      | some v => (splitWS v).contains c
      | none => false
    | _ => false
  | .sunion a b => selMatchesAt doc a p || selMatchesAt doc b p
  | .sdivChild =>
    match nodeAt? doc p with
    | some (.elem _ _ _) =>
      (!p.isEmpty) &&
        match nodeAt? doc p.dropLast with
        | some (.elem tg _ _) => tg = "div".data
        | _ => false
    | _ => false

/-- BeautifulSoup `scope.select(sel)`: all strict descendants of the node at
path `sp` matching `sel`, in document order, as absolute paths. -/
def selectIn (doc : DomNode) (sp : Path) (sel : Sel) : List Path :=
  match nodeAt? doc sp with
  | none => []
  | some scope =>
    (((allPaths scope).filter (fun q => !q.isEmpty)).map (fun q => sp ++ q)).filter
      (fun p => selMatchesAt doc sel p)

/-! ### Python string helpers used by `search_zindex` -/

/-- Split a list at the first occurrence of `sep`, returning the parts
before and after it; `none` when `sep` does not occur.  (`sep` is assumed
nonempty, as it is at both use sites.) -/
def findSplit (sep : Str) : Str → Option (Str × Str)
  | [] => none
  | c :: rest =>
    if sep.isPrefixOf (c :: rest) then some ([], (c :: rest).drop sep.length)
    else
      match findSplit sep rest with
      | some (a, b) => some (c :: a, b)
      | none => none

/-- Python `s.split(sep)[0]`. -/
def pySplitHead (sep s : Str) : Str :=
  match findSplit sep s with
  | some (a, _) => a
  | none => s

/-- Python `s.split(sep)[1]`, assuming `sep` occurs in `s`: the segment
between the first occurrence of `sep` and the following occurrence (or the
end of the string). -/
def pySplitSeg1 (sep s : Str) : Str :=
  match findSplit sep s with
  | some (_, after) => pySplitHead sep after
  | none => s

/-- Python `str.strip()`: drop leading and trailing whitespace. -/
def pyStrip (s : Str) : Str :=
  ((s.dropWhile (fun c => c.isWhitespace)).reverse.dropWhile
    (fun c => c.isWhitespace)).reverse

/-- Numeric value of a nonempty decimal digit string. -/
def digitsVal (s : Str) : Nat :=
  s.foldl (fun acc c => 10 * acc + (c.toNat - '0'.toNat)) 0

/-- Python `int(s)` on an already-stripped string: an optional sign followed
by at least one decimal digit; `none` models the `ValueError` raised
otherwise. -/
def pyIntParse (s : Str) : Option Int :=
  match s with
  | '+' :: rest =>
    if !rest.isEmpty && rest.all (fun c => c.isDigit) then some (digitsVal rest) else none
  | '-' :: rest =>
    if !rest.isEmpty && rest.all (fun c => c.isDigit) then some (-(digitsVal rest : Int))
    else none
  | _ => if !s.isEmpty && s.all (fun c => c.isDigit) then some (digitsVal s) else none

/-- Python `needle in hay` for strings: contiguous-substring test. -/
def strContains (needle hay : Str) : Bool :=
  decide (needle <:+: hay)

/-! ### `search_zindex` and `zindex_sort` -/

/-- The `"z-index:"` marker searched for in the inline style. -/
def zMarker : Str := "z-index:".data

/-- Message of the `ValueError` raised by `int()` on an unparsable string. -/
def valueErrorMsg : Str := "invalid literal for int()".data

/--
`Base.search_zindex`:

    zindex = 0
    if hasattr(element,"attrs") and "style" in element.attrs \
        and "z-index:" in element.attrs['style']:
      zindex = int(element.attrs['style'].split("z-index:")[1].split(";")[0].strip())
    return zindex

Text nodes (no `attrs`) yield 0; so does a tag without a `style` attribute
or whose style has no `"z-index:"` marker.  When the marker is present the
segment after it is cut at the next `";"`, stripped and fed to `int()`,
whose `ValueError` on an unparsable segment is the `.error` case. -/
def search_zindex (element : DomNode) : Except Str Int :=
  match element with
  | .text _ => .ok 0
  | .elem _ attrs _ =>
    match lookupAttr attrs ("style".data) with
    | none => .ok 0
    | some style =>
      if strContains zMarker style then
        match pyIntParse (pyStrip (pySplitHead (";".data) (pySplitSeg1 zMarker style))) with
        | some v => .ok v
        | none => .error valueErrorMsg
      else .ok 0

/-- `search_zindex` of the node at path `p` (0 for an invalid path). -/
def zkey (doc : DomNode) (p : Path) : Except Str Int :=
  match nodeAt? doc p with
  | some n => search_zindex n
  | none => .ok 0

/-- The integer sort key of a path whose `zkey` does not raise. -/
def zval (doc : DomNode) (p : Path) : Int :=
  match zkey doc p with
  | .ok v => v
  | .error _ => 0

/--
`Base.zindex_sort`: `elements.sort(key=lambda x: self.search_zindex(x), reverse=reverse)`.

Python's `list.sort` computes every key first (so a `ValueError` raised by
`search_zindex` on any element aborts the sort) and then sorts stably; with
`reverse=True` equal-key elements still keep their original order.  A
stable sort is a function of the key order, so it is embedded as insertion
sort with the corresponding total preorder on keys. -/
def zindex_sort (doc : DomNode) (elements : List Path) (reverse : Bool) :
    Except Str (List Path) :=
  if elements.all (fun p => (zkey doc p).isOk) then
    if reverse then
      .ok (List.insertionSort (fun a b => zval doc b ≤ zval doc a) elements)
    else
      .ok (List.insertionSort (fun a b => zval doc a ≤ zval doc b) elements)
  else .error valueErrorMsg

/-! ### Environment: external collaborators -/

/-- A value produced by `driver.execute_script`, as converted to Python by
Selenium.  Element arrays are the one list shape this code consumes. -/
inductive PyValue where
  | vNone
  | vBool (b : Bool)
  | vInt (n : Int)
  | vStr (s : Str)
  | vList (l : List Path)

/-- Python truthiness `bool(x)` of a script result. -/
def pyBool : PyValue → Bool
  | .vNone => false
  | .vBool b => b
  | .vInt n => n != 0
  | .vStr s => !s.isEmpty
  | .vList l => !l.isEmpty

/-- `enum.ScrapType`: the five search strategies. -/
inductive ScrapType where
  | TEXT
  | CSS_SELECTOR
  | XPATH
  | MIXED
  | SCRIPT
deriving DecidableEq, Repr

/-- Oracles for the external collaborators.  The live document is assumed
to coincide with the parsed snapshot, so CSS queries of the driver are
answered from the same tree; XPath evaluation, script execution, selector
parsing and live displayed-ness stay abstract. -/
structure Env where
  /-- meaning of a CSS selector string -/
  parseSel : Str → Sel
  /-- `driver.execute_script` -/
  script : Str → PyValue
  /-- `driver.find_elements(By.XPATH, t)` against the whole live document -/
  xpathFind : Str → List Path
  /-- Selenium `is_displayed()` of the live element for a snapshot node -/
  displayed : Path → Bool

/-- `self.base_container`, set to `"body"` in `__init__`. -/
def baseContainer : Str := "body".data

/-! ### Label-association resolver -/

/-- Match of the regex `^<escaped label text>\*?\s+$` against a whole text
node content: the label text literally, an optional `*`, then at least one
whitespace character up to the end. -/
def labelMatch (label s : Str) : Bool :=
  if label.isPrefixOf s then
    let rest := s.drop label.length
    match rest with
    | '*' :: rest2 => !rest2.isEmpty && rest2.all (fun c => c.isWhitespace)
    | _ => !rest.isEmpty && rest.all (fun c => c.isWhitespace)
  else false

/-- Is the node at `p` a text node matching the label pattern? -/
def isLabelTextAt (doc : DomNode) (label : Str) (p : Path) : Bool :=
  match nodeAt? doc p with
  | some (.text s) => labelMatch label s
  | _ => false

/-- `container.find_all(text=re.compile(...))`: absolute paths of all text
descendants of the container matching the label pattern, in document
order. -/
def labelTextMatches (doc : DomNode) (container : Path) (label : Str) : List Path :=
  match nodeAt? doc container with
  | none => []
  | some scope =>
    (((allPaths scope).filter (fun q => !q.isEmpty)).map (fun q => container ++ q)).filter
      (fun p => isLabelTextAt doc label p)

/--
`Base.find_first_div_parent`:

    current = element
    while(hasattr(current, "name") and current.name != "div"):
        current = current.find_parent()
    return current

In BeautifulSoup every page element has a `name`: `None` for a
`NavigableString`, the tag name for a tag; so text nodes always climb on,
and only a `div` tag (or running past the root, where `find_parent()`
yields `None`) stops the loop.

The loop is embedded structurally over the reversed path (`divClimb`):
dropping the last component of the path is dropping the head of its
reversal. -/
def divClimb (doc : DomNode) : Path → Option Path
  | [] =>
    match nodeAt? doc [] with
    | some (.elem tg _ _) => if tg = "div".data then some [] else none
    | _ => none
  | i :: rest =>
    match nodeAt? doc ((i :: rest).reverse) with
    | some (.elem tg _ _) =>
      if tg = "div".data then some ((i :: rest).reverse) else divClimb doc rest
    | some (.text _) => divClimb doc rest
    | none => none

/-- `Base.find_first_div_parent` (see `divClimb`). -/
def find_first_div_parent (doc : DomNode) (p : Path) : Option Path :=
  divClimb doc p.reverse

/-- Is the node a tag named `input`? -/
def isInputNode : DomNode → Bool
  | .elem tg _ _ => tg = "input".data
  | .text _ => false

/-- Index of the first tag named `input` in `cs`, counting from `j`. -/
def firstInputIdx (j : Nat) : List DomNode → Option Nat
  | [] => none
  | c :: rest => if isInputNode c then some j else firstInputIdx (j + 1) rest

/-- `element.find_next_sibling("input")`: the first following sibling of
the node at `p` that is a tag named `input` (not necessarily the immediate
following sibling). -/
def findNextSiblingInput (doc : DomNode) (p : Path) : Option Path :=
  match p.getLast? with
  | none => none
  | some i =>
    match nodeAt? doc p.dropLast with
    | some parent =>
      (firstInputIdx (i + 1) ((DomNode.childrenOf parent).drop (i + 1))).map
        (fun j => p.dropLast ++ [j])
    | none => none

/--
`Base.find_label_element`:

    element = next(iter(list(map(lambda x: self.find_first_div_parent(x),
        container.find_all(text=re.compile(...))))), None)
    if element is None: return []
    next_sibling = element.find_next_sibling("input")
    if next_sibling: return [next_sibling]
    else: return []
-/
def find_label_element (doc : DomNode) (container : Path) (label_text : Str) :
    List Path :=
  match ((labelTextMatches doc container label_text).map
      (fun p => find_first_div_parent doc p)).head? with
  | none => []
  | some none => []
  | some (some element) =>
    match findNextSiblingInput doc element with
    | some sib => [sib]
    | none => []

/-! ### Container resolution, `web_scrap` and `element_exists` -/

/-- Message of the exception raised when the polling loop finds no
container. -/
def containerNotFoundMsg : Str := "Couldn't find container".data

/-- The containers considered by `web_scrap`/`element_exists`: all nodes
matching the container selector, ranked topmost-first
(`zindex_sort(soup.select(container_selector), reverse=True)`). -/
def rankedContainers (env : Env) (doc : DomNode) (main_container : Option Str) :
    Except Str (List Path) :=
  let csel := main_container.getD baseContainer
  zindex_sort doc (selectIn doc [] (env.parseSel csel)) true

/-- The chosen (topmost) container, `none` when the selector matches
nothing.  The `.error` case is a `ValueError` escaping `search_zindex`. -/
def topContainer (env : Env) (doc : DomNode) (main_container : Option Str) :
    Except Str (Option Path) :=
  (rankedContainers env doc main_container).map List.head?

/--
`Base.web_scrap` (the locate operation).  The polling loop re-snapshots the
same static document, so one iteration decides the outcome; any exception
in the body is caught and re-raised through `log_error`, the shared error
channel, keeping its message. -/
def web_scrap (env : Env) (doc : DomNode) (term : Str) (scrap_type : ScrapType)
    (optional_term : Option Str) (label : Bool) (main_container : Option Str) :
    Except Str (List Path) :=
  match rankedContainers env doc main_container with
  | .error e => .error e
  | .ok containers =>
    match containers.head? with
    | none => .error containerNotFoundMsg
    | some container =>
      match scrap_type with
      | .TEXT =>
        if label then .ok (find_label_element doc container term)
        else
          .ok ((selectIn doc container .sdivChild).filter
            (fun p => strContains (term.map Char.toLower) ((textAt doc p).map Char.toLower)))
      | .CSS_SELECTOR => .ok (selectIn doc container (env.parseSel term))
      | .MIXED =>
        match optional_term with
        | some ot =>
          .ok ((selectIn doc container (env.parseSel ot)).filter
            (fun p => strContains (term.map Char.toLower) ((textAt doc p).map Char.toLower)))
        | none => .ok []
      | .SCRIPT =>
        .ok (match env.script term with
          | .vList l => l
          | _ => [])
      | .XPATH => .ok []

/-- The final position test of `element_exists`:
`len(element_list) > 0` when `position == 0`, else
`len(element_list) >= position`. -/
def posCheck (position len : Nat) : Bool :=
  if position = 0 then decide (len > 0) else decide (len ≥ position)

/--
`Base.element_exists` (the exists operation).

* `SCRIPT`: returns the truthiness of the raw script result at once.
* `CSS_SELECTOR`/`XPATH`: requires a container to exist (else `False`) but
  then queries the **whole live document** via
  `driver.find_elements(by, selector)`; a `ValueError` from the container
  ranking propagates uncaught.  (The live document equals the snapshot
  here, so resolving the container against the driver succeeds.)
* `TEXT`/`MIXED`: delegates to `web_scrap` and compares the length of the
  result with `position`.
-/
def element_exists (env : Env) (doc : DomNode) (term : Str) (scrap_type : ScrapType)
    (position : Nat) (optional_term : Str) (main_container : Option Str) :
    Except Str Bool :=
  match scrap_type with
  | .SCRIPT => .ok (pyBool (env.script term))
  | .CSS_SELECTOR =>
    match topContainer env doc main_container with
    | .error e => .error e
    | .ok none => .ok false
    | .ok (some _) => .ok (posCheck position (selectIn doc [] (env.parseSel term)).length)
  | .XPATH =>
    match topContainer env doc main_container with
    | .error e => .error e
    | .ok none => .ok false
    | .ok (some _) => .ok (posCheck position (env.xpathFind term).length)
  | .TEXT =>
    match web_scrap env doc term .TEXT (some optional_term) false main_container with
    | .error e => .error e
    | .ok l => .ok (posCheck position l.length)
  | .MIXED =>
    match web_scrap env doc term .MIXED (some optional_term) false main_container with
    | .error e => .error e
    | .ok l => .ok (posCheck position l.length)

/--
`Base.filter_displayed_elements`: enumerate the elements, resolve each to a
live handle, keep those whose live element `is_displayed()`, then hand the
survivors (in original order) to `zindex_sort` with the given `reverse`
flag. -/
def filter_displayed_elements (env : Env) (doc : DomNode) (elements : List Path)
    (reverse : Bool) : Except Str (List Path) :=
  let indexed := elements.enum
  let filteredIdx := (indexed.filter (fun x => env.displayed x.2)).map (fun x => x.1)
  let filtered := (indexed.filter (fun x => filteredIdx.contains x.1)).map (fun x => x.2)
  zindex_sort doc filtered reverse

/-! ### Derived predicates used to state the claims -/

/-- Is the node at `p` a tag named `div`? -/
def isDivAt (doc : DomNode) (p : Path) : Bool :=
  match nodeAt? doc p with
  | some (.elem tg _ _) => tg = "div".data
  | _ => false

/-- Is the node at `p` a tag named `input`? -/
def isInputAt (doc : DomNode) (p : Path) : Bool :=
  match nodeAt? doc p with
  | some n => isInputNode n
  | none => false

/-! ### Concrete documents and environments used in counterexamples and
witnesses -/

/-- The default `main_container` argument of `element_exists`. -/
def dfltMC : Str := ".tmodaldialog,.ui-dialog".data

/-- A demonstration environment: the selector strings appearing in the
examples get their CSS meaning, scripts return a truthy non-list, nothing
is matched by XPath, and every node except the one at path `[2]` is
displayed. -/
def envW : Env where
  parseSel := fun s =>
    if s = dfltMC then .sunion (.scls "tmodaldialog".data) (.scls "ui-dialog".data)
    else if s = "div > *".data then .sdivChild
    else if s = ".target".data then .scls "target".data
    else if s = ".tsay".data then .scls "tsay".data
    else .stag s
  script := fun _ => .vInt 1
  xpathFind := fun _ => []
  displayed := fun p => p != ([2] : Path)

/-- Dialog containing a label `"Name "` whose `div` block is followed by a
`span` and only then an `input`. -/
def docA : DomNode :=
  .elem "body".data [] [
    .elem "div".data
      [("class".data, "tmodaldialog".data), ("style".data, "z-index:10;".data)] [
        .elem "div".data [] [.text "Name ".data],
        .elem "span".data [] [],
        .elem "input".data [] []],
    .elem "div".data
      [("class".data, "ui-dialog".data), ("style".data, "z-index:20;".data)] []]

/-- A document with no node matching the default container selector. -/
def docB : DomNode :=
  .elem "body".data [] [.elem "div".data [] []]

/-- An (empty) dialog container next to an outside element of class
`target`. -/
def docC : DomNode :=
  .elem "body".data [] [
    .elem "div".data [("class".data, "tmodaldialog".data)] [],
    .elem "button".data [("class".data, "target".data)] []]

/-- Three stacked `div`s with z-indexes 5, 9, 5 — two of them tied. -/
def docD : DomNode :=
  .elem "body".data [] [
    .elem "div".data [("style".data, "z-index:5;".data)] [],
    .elem "div".data [("style".data, "z-index:9;".data)] [],
    .elem "div".data [("style".data, "z-index:5 ;".data)] []]

/-- A tag whose inline style has a `z-index:` marker followed by a
non-numeric value. -/
def elemBadZ : DomNode :=
  .elem "div".data [("style".data, "z-index:abc;".data)] []

/-- A dialog holding two `.tsay` captions, only one containing "ok". -/
def docE : DomNode :=
  .elem "body".data [] [
    .elem "div".data [("class".data, "tmodaldialog".data)] [
      .elem "span".data [("class".data, "tsay".data)] [.text "OK".data],
      .elem "span".data [("class".data, "tsay".data)] [.text "Cancel".data]]]

/-! ## Lemmas about stable sorting -/

theorem filter_orderedInsert {α : Type} (r : α → α → Prop) [DecidableRel r]
    (P : α → Bool) (x : α) (h : P x = true → ∀ y, ¬r x y → P y = false) :
    ∀ l : List α, (List.orderedInsert r x l).filter P =
      if P x then x :: l.filter P else l.filter P
  | [] => by
    cases hx : P x <;> simp [List.filter, hx]
  | y :: l => by
    by_cases hr : r x y
    · cases hx : P x <;> simp [List.orderedInsert, hr, List.filter, hx]
    · have ih := filter_orderedInsert r P x h l
      cases hx : P x
      · simp [List.orderedInsert, hr, List.filter_cons, ih, hx]
      · have hy : P y = false := h hx y hr
        simp [List.orderedInsert, hr, List.filter_cons, ih, hx, hy]

theorem filter_insertionSort {α : Type} (r : α → α → Prop) [DecidableRel r]
    (P : α → Bool) (h : ∀ x, P x = true → ∀ y, ¬r x y → P y = false) :
    ∀ l : List α, (List.insertionSort r l).filter P = l.filter P
  | [] => rfl
  | x :: l => by
    rw [List.insertionSort, filter_orderedInsert r P x (h x),
      filter_insertionSort r P h l, List.filter_cons]

theorem zindex_sort_ok {doc : DomNode} {l l' : List Path} {rev : Bool}
    (h : zindex_sort doc l rev = .ok l') :
    l' = (if rev then List.insertionSort (fun a b => zval doc b ≤ zval doc a) l
          else List.insertionSort (fun a b => zval doc a ≤ zval doc b) l) := by
  unfold zindex_sort at h
  split at h
  · split at h <;> simp_all
  · simp at h

/-- **C9** (confirmed): whenever `zindex_sort` returns (it raises when some
element's z-index is present but unparsable), the returned list is a
permutation of the input: the same elements with the same multiplicities,
only reordered.  This holds for either value of the `reverse` flag. -/
theorem claim_C9 (doc : DomNode) (l : List Path) (reverse : Bool) (l' : List Path)
    (h : zindex_sort doc l reverse = .ok l') : l'.Perm l := by
  have e := zindex_sort_ok h
  cases reverse <;> simp only [if_true, if_false, Bool.false_eq_true] at e <;>
    (subst e; exact List.perm_insertionSort _ l)

/-- Witness for C9 at a concrete document and list. -/
theorem claim_C9_witness :
    zindex_sort docD [[1], [0]] false = .ok [[0], [1]] ∧
      List.Perm ([[0], [1]] : List Path) [[1], [0]] :=
  ⟨by rfl, claim_C9 docD [[1], [0]] false [[0], [1]] (by rfl)⟩

/-- **C3** (confirmed): on any list of candidates whose z-index keys all
parse, container ranking (`zindex_sort` with `reverse=True`) succeeds and
returns the candidates ordered by descending derived z-index; elements with
equal z-index keep their original relative order (for every key value the
subsequence with that key is unchanged), and the result is a permutation of
the input. -/
theorem claim_C3 (doc : DomNode) (l : List Path)
    (h : ∀ p ∈ l, (zkey doc p).isOk = true) :
    ∃ l', zindex_sort doc l true = .ok l' ∧
      List.Pairwise (fun a b => zval doc b ≤ zval doc a) l' ∧
      (∀ v : Int, l'.filter (fun p => decide (zval doc p = v)) =
        l.filter (fun p => decide (zval doc p = v))) ∧
      l'.Perm l := by
  have hall : l.all (fun p => (zkey doc p).isOk) = true := by
    simpa [List.all_eq_true] using h
  refine ⟨List.insertionSort (fun a b => zval doc b ≤ zval doc a) l, ?_, ?_, ?_, ?_⟩
  · simp [zindex_sort, hall]
  · haveI : IsTotal Path (fun a b => zval doc b ≤ zval doc a) :=
      ⟨fun a b => le_total (zval doc b) (zval doc a)⟩
    haveI : IsTrans Path (fun a b => zval doc b ≤ zval doc a) :=
      ⟨fun _ _ _ hab hbc => le_trans hbc hab⟩
    exact List.sorted_insertionSort _ l
  · intro v
    refine filter_insertionSort _ _ (fun x hx y hxy => ?_) l
    simp only [decide_eq_true_eq] at hx
    simp only [decide_eq_false_iff_not]
    omega
  · exact List.perm_insertionSort _ l

/-- Witness for C3: three stacked divs with z-indexes 5, 9, 5. -/
theorem claim_C3_witness :
    (∀ p ∈ ([[0], [1], [2]] : List Path), (zkey docD p).isOk = true) ∧
      ∃ l', zindex_sort docD [[0], [1], [2]] true = .ok l' ∧
        List.Pairwise (fun a b => zval docD b ≤ zval docD a) l' ∧
        (∀ v : Int, l'.filter (fun p => decide (zval docD p = v)) =
          ([[0], [1], [2]] : List Path).filter (fun p => decide (zval docD p = v))) ∧
        l'.Perm [[0], [1], [2]] :=
  ⟨by decide, claim_C3 docD [[0], [1], [2]] (by decide)⟩

/-! ## Structural lemmas about paths and selection -/

theorem nodeAt?_append (p q : Path) : ∀ n : DomNode,
    nodeAt? n (p ++ q) = (nodeAt? n p).bind (fun m => nodeAt? m q) := by
  induction p with
  | nil => intro n; simp [nodeAt?]
  | cons i p ih =>
    intro n
    simp only [List.cons_append, nodeAt?]
    cases (DomNode.childrenOf n)[i]? <;> simp [ih]

theorem mem_allPathsChildren (q : Path) (i : Nat) :
    ∀ (k : Nat) (cs : List DomNode),
      ((i :: q) ∈ allPathsChildren k cs ↔
        ∃ c, k ≤ i ∧ cs[i - k]? = some c ∧ q ∈ allPaths c) := by
  intro k cs
  induction cs generalizing k with
  | nil => simp [allPathsChildren]
  | cons c rest ih =>
    simp only [allPathsChildren, List.mem_append, List.mem_map]
    constructor
    · rintro (⟨q', hq', he⟩ | hmem)
      · obtain ⟨rfl, rfl⟩ : k = i ∧ q' = q := by
          injection he with h1 h2
          exact ⟨h1, h2⟩
        exact ⟨c, le_refl _, by simp, hq'⟩
      · obtain ⟨c', hki, hc', hq⟩ := (ih (k + 1)).mp hmem
        refine ⟨c', by omega, ?_, hq⟩
        have hik : i - k = (i - (k + 1)) + 1 := by omega
        rw [hik]
        simpa using hc'
    · rintro ⟨c', hki, hc', hq⟩
      by_cases hik : i = k
      · subst hik
        simp only [Nat.sub_self, List.getElem?_cons_zero, Option.some.injEq] at hc'
        exact Or.inl ⟨q, hc' ▸ hq, rfl⟩
      · refine Or.inr ((ih (k + 1)).mpr ⟨c', by omega, ?_, hq⟩)
        have hik2 : i - k = (i - (k + 1)) + 1 := by omega
        rw [hik2] at hc'
        simpa using hc'

theorem mem_allPaths : ∀ (p : Path) (n : DomNode),
    p ∈ allPaths n ↔ (nodeAt? n p).isSome = true := by
  intro p
  induction p with
  | nil => intro n; cases n <;> simp [allPaths, nodeAt?]
  | cons i q ih =>
    intro n
    cases n with
    | text s => simp [allPaths, nodeAt?, DomNode.childrenOf]
    | elem t a cs =>
      have haux := mem_allPathsChildren q i 0 cs
      simp only [Nat.zero_le, true_and, Nat.sub_zero] at haux
      simp only [allPaths, List.mem_cons, List.cons_ne_nil, false_or]
      rw [haux]
      cases hc : cs[i]? with
      | none => simp [nodeAt?, DomNode.childrenOf, hc]
      | some c => simp [nodeAt?, DomNode.childrenOf, hc, ih c]

theorem mem_selectIn {doc : DomNode} {sp : Path} {sel : Sel} {p : Path} :
    p ∈ selectIn doc sp sel ↔
      (sp <+: p ∧ sp ≠ p ∧ (nodeAt? doc p).isSome = true ∧
        selMatchesAt doc sel p = true) := by
  unfold selectIn
  cases hsc : nodeAt? doc sp with
  | none =>
    simp only [List.not_mem_nil, false_iff]
    rintro ⟨⟨q, rfl⟩, _, hsome, _⟩
    rw [nodeAt?_append] at hsome
    simp [hsc] at hsome
  | some scope =>
    simp only [List.mem_filter, List.mem_map]
    constructor
    · rintro ⟨⟨q, hq, rfl⟩, hmatch⟩
      obtain ⟨hqmem, hqne⟩ := hq
      refine ⟨⟨q, rfl⟩, ?_, ?_, hmatch⟩
      · intro he
        have hq0 : q = [] := by
          have hlen := congrArg List.length he
          simp only [List.length_append] at hlen
          simpa [List.length_eq_zero] using hlen.symm
        rw [hq0] at hqne
        simp at hqne
      · rw [nodeAt?_append]
        simp only [hsc]
        simpa using (mem_allPaths q scope).mp hqmem
    · rintro ⟨⟨q, rfl⟩, hne, hsome, hmatch⟩
      have hq : q ≠ [] := fun h => hne (by simp [h])
      refine ⟨⟨q, ⟨?_, by simpa using hq⟩, rfl⟩, hmatch⟩
      apply (mem_allPaths q scope).mpr
      rw [nodeAt?_append] at hsome
      simpa [hsc] using hsome

theorem labelTextMatches_mem {doc : DomNode} {container m : Path} {label : Str}
    (h : m ∈ labelTextMatches doc container label) :
    isLabelTextAt doc label m = true := by
  unfold labelTextMatches at h
  cases hsc : nodeAt? doc container <;> rw [hsc] at h
  · simp at h
  · exact (List.mem_filter.mp h).2

theorem topContainer_ok {env : Env} {doc : DomNode} {mc : Option Str} {c : Path}
    (h : topContainer env doc mc = .ok (some c)) :
    ∃ l, rankedContainers env doc mc = .ok l ∧ l.head? = some c := by
  unfold topContainer at h
  cases hr : rankedContainers env doc mc <;> rw [hr] at h
  · simp [Except.map] at h
  · exact ⟨_, rfl, by simpa [Except.map] using h⟩

theorem topContainer_none {env : Env} {doc : DomNode} {mc : Option Str}
    (h : topContainer env doc mc = .ok none) :
    rankedContainers env doc mc = .ok [] := by
  unfold topContainer at h
  cases hr : rankedContainers env doc mc <;> rw [hr] at h
  · simp [Except.map] at h
  · simp only [Except.map, Except.ok.injEq] at h
    rw [List.head?_eq_none_iff] at h
    simp [h]

theorem posCheck_eq_max (position len : Nat) :
    posCheck position len = decide (max position 1 ≤ len) := by
  unfold posCheck
  by_cases hp : position = 0
  · rw [if_pos hp]
    exact decide_eq_decide.mpr (by omega)
  · rw [if_neg hp]
    exact decide_eq_decide.mpr (by omega)

/-- **C10** (confirmed): label-based lookup never returns more than one
element, whatever the document, container and label text. -/
theorem claim_C10 (doc : DomNode) (container : Path) (label_text : Str) :
    (find_label_element doc container label_text).length ≤ 1 := by
  unfold find_label_element
  split
  · simp
  · simp
  · split <;> simp

/-- **C1** (corrected) — counterexample: with the `ScriptEvaluated` strategy
the script result is a truthy non-list (`1`), so the strategy produces zero
matches (the locate operation returns `[]`), yet `element_exists` at
position 0 — which the claim reads as "at least one match" — returns
`True`.  The `SCRIPT` branch returns `bool(driver.execute_script(term))`
without ever counting matches or consulting `position`. -/
theorem claim_C1_counterexample :
    element_exists envW docA "code".data .SCRIPT 0 [] (some dfltMC) = .ok true ∧
      web_scrap envW docA "code".data .SCRIPT none false (some dfltMC) = .ok [] :=
  ⟨rfl, rfl⟩

/-- **C1** (amended): the "at least `max(position,1)` matches" reading holds
for the `TEXT` and `MIXED` strategies (counting the matches of the locate
operation) and for `CSS_SELECTOR`/`XPATH` when a container exists (counting
whole-document driver matches); when no container is found those two
strategies yield `False`; the `SCRIPT` strategy instead returns the
truthiness of the raw script result, ignoring `position`. -/
theorem claim_C1 (env : Env) (doc : DomNode) (term : Str) (position : Nat)
    (optional_term : Str) (mc : Option Str) :
    (element_exists env doc term .SCRIPT position optional_term mc =
      .ok (pyBool (env.script term))) ∧
    (∀ l, web_scrap env doc term .TEXT (some optional_term) false mc = .ok l →
      element_exists env doc term .TEXT position optional_term mc =
        .ok (decide (max position 1 ≤ l.length))) ∧
    (∀ l, web_scrap env doc term .MIXED (some optional_term) false mc = .ok l →
      element_exists env doc term .MIXED position optional_term mc =
        .ok (decide (max position 1 ≤ l.length))) ∧
    (∀ c, topContainer env doc mc = .ok (some c) →
      element_exists env doc term .CSS_SELECTOR position optional_term mc =
        .ok (decide (max position 1 ≤ (selectIn doc [] (env.parseSel term)).length)) ∧
      element_exists env doc term .XPATH position optional_term mc =
        .ok (decide (max position 1 ≤ (env.xpathFind term).length))) ∧
    (topContainer env doc mc = .ok none →
      element_exists env doc term .CSS_SELECTOR position optional_term mc = .ok false ∧
      element_exists env doc term .XPATH position optional_term mc = .ok false) := by
  refine ⟨rfl, ?_, ?_, ?_, ?_⟩
  · intro l h
    simp [element_exists, h, posCheck_eq_max]
  · intro l h
    simp [element_exists, h, posCheck_eq_max]
  · intro c h
    constructor <;> simp [element_exists, h, posCheck_eq_max]
  · intro h
    constructor <;> simp [element_exists, h]

/-- Witness for C1 at a concrete document: the dialog stack of `docA` has
topmost container `[1]`, and a whole-document CSS query decides the
position-2 check. -/
theorem claim_C1_witness :
    topContainer envW docA (some dfltMC) = .ok (some [1]) ∧
      element_exists envW docA ".target".data .CSS_SELECTOR 2 [] (some dfltMC) =
        .ok (decide (max 2 1 ≤ (selectIn docA [] (envW.parseSel ".target".data)).length)) :=
  ⟨by rfl,
    ((claim_C1 envW docA ".target".data 2 [] (some dfltMC)).2.2.2.1 [1] (by rfl)).1⟩

/-- **C7** (corrected) — counterexample: on a document with no node matching
the container selector, `element_exists` with the `CssSelector` strategy
returns `False` instead of raising a failure, while the locate operation
(`web_scrap`) does raise the fatal "Couldn't find container" failure for
the same document. -/
theorem claim_C7_counterexample :
    element_exists envW docB ".target".data .CSS_SELECTOR 0 [] (some dfltMC) =
        .ok false ∧
      web_scrap envW docB ".target".data .CSS_SELECTOR none false (some dfltMC) =
        .error containerNotFoundMsg :=
  ⟨rfl, rfl⟩

/-- **C7** (amended): in the locate operation every resolution failure is a
single fatal failure through the shared error channel — a missing container
raises "Couldn't find container", and a `ValueError` escaping the container
ranking propagates — and a call never yields a partial result alongside a
failure and never falls back to another strategy.  In the exists operation
the `TEXT`/`MIXED` strategies propagate the locate failure unchanged, but
the `CssSelector`/`XPath` strategies return `False` on a missing container
instead of raising. -/
theorem claim_C7 (env : Env) (doc : DomNode) (term : Str) (st : ScrapType)
    (position : Nat) (ot : Str) (oto : Option Str) (label : Bool)
    (mc : Option Str) :
    (topContainer env doc mc = .ok none →
      web_scrap env doc term st oto label mc = .error containerNotFoundMsg) ∧
    (∀ e, rankedContainers env doc mc = .error e →
      web_scrap env doc term st oto label mc = .error e) ∧
    (topContainer env doc mc = .ok none →
      element_exists env doc term .CSS_SELECTOR position ot mc = .ok false ∧
      element_exists env doc term .XPATH position ot mc = .ok false) ∧
    (∀ e, web_scrap env doc term .TEXT (some ot) false mc = .error e →
      element_exists env doc term .TEXT position ot mc = .error e) ∧
    (∀ e, web_scrap env doc term .MIXED (some ot) false mc = .error e →
      element_exists env doc term .MIXED position ot mc = .error e) := by
  refine ⟨?_, ?_, ?_, ?_, ?_⟩
  · intro h
    have hr := topContainer_none h
    simp [web_scrap, hr]
  · intro e h
    simp [web_scrap, h]
  · intro h
    constructor <;> simp [element_exists, h]
  · intro e h
    simp [element_exists, h]
  · intro e h
    simp [element_exists, h]

/-- Witness for C7: on the container-less `docB`, the locate operation
raises the container failure for the `TEXT` strategy, and the exists
operation for `CssSelector` returns `False`. -/
theorem claim_C7_witness :
    topContainer envW docB (some dfltMC) = .ok none ∧
      web_scrap envW docB "x".data .TEXT (some []) false (some dfltMC) =
        .error containerNotFoundMsg ∧
      element_exists envW docB "x".data .CSS_SELECTOR 0 [] (some dfltMC) = .ok false :=
  ⟨by rfl,
    (claim_C7 envW docB "x".data .TEXT 0 [] (some []) false (some dfltMC)).1 (by rfl),
    ((claim_C7 envW docB "x".data .CSS_SELECTOR 0 [] (some []) false
      (some dfltMC)).2.2.1 (by rfl)).1⟩

/-- **C8** (corrected) — counterexample: `docC` holds an empty dialog
container and, outside it, a `button` of class `target`.  No descendant of
the chosen container matches the selector, yet the exists operation with
the `CssSelector` strategy returns `True`, because
`element_exists` queries `driver.find_elements(By.CSS_SELECTOR, ...)`
against the whole document, using the container only as an existence
gate. -/
theorem claim_C8_counterexample :
    element_exists envW docC ".target".data .CSS_SELECTOR 0 [] (some dfltMC) =
        .ok true ∧
      topContainer envW docC (some dfltMC) = .ok (some [0]) ∧
      selectIn docC [0] (envW.parseSel ".target".data) = [] :=
  ⟨rfl, rfl, rfl⟩

/-- **C8** (amended): in the locate operation the `CssSelector` strategy is
container-scoped — it returns exactly `container.select(term)`, and every
returned node is a strict descendant of the chosen topmost container that
matches the selector — whereas in the exists operation both the
`CssSelector` and the `XPath` strategies are evaluated against the whole
document, the container serving only as an existence gate. -/
theorem claim_C8 (env : Env) (doc : DomNode) (term : Str) (position : Nat)
    (ot : Str) (mc : Option Str) :
    (∀ c, topContainer env doc mc = .ok (some c) →
      (web_scrap env doc term .CSS_SELECTOR none false mc =
        .ok (selectIn doc c (env.parseSel term))) ∧
      (∀ p ∈ selectIn doc c (env.parseSel term),
        c <+: p ∧ c ≠ p ∧ selMatchesAt doc (env.parseSel term) p = true)) ∧
    (∀ c, topContainer env doc mc = .ok (some c) →
      element_exists env doc term .CSS_SELECTOR position ot mc =
        .ok (posCheck position (selectIn doc [] (env.parseSel term)).length) ∧
      element_exists env doc term .XPATH position ot mc =
        .ok (posCheck position (env.xpathFind term).length)) := by
  constructor
  · intro c h
    obtain ⟨l, hl, hh⟩ := topContainer_ok h
    constructor
    · simp [web_scrap, hl, hh]
    · intro p hp
      have hm := mem_selectIn.mp hp
      exact ⟨hm.1, hm.2.1, hm.2.2.2⟩
  · intro c h
    constructor <;> simp [element_exists, h]

/-- Witness for C8 at `docC`: the locate operation scoped to the container
finds nothing of class `target`, while the exists operation, querying the
whole document, succeeds. -/
theorem claim_C8_witness :
    topContainer envW docC (some dfltMC) = .ok (some [0]) ∧
      web_scrap envW docC ".target".data .CSS_SELECTOR none false (some dfltMC) =
        .ok (selectIn docC [0] (envW.parseSel ".target".data)) :=
  ⟨by rfl,
    ((claim_C8 envW docC ".target".data 0 [] (some dfltMC)).1 [0] (by rfl)).1⟩

/-- **C5** (confirmed): given the chosen (topmost) container, the `Mixed`
strategy returns exactly the strict descendants of that container that both
match the secondary-term selector and whose text case-insensitively
contains the term; membership in the result is equivalent to the
conjunction of the two conditions, so an element satisfying only one of
them is never returned. -/
theorem claim_C5 (env : Env) (doc : DomNode) (term ot : Str) (mc : Option Str)
    (c : Path) (h : topContainer env doc mc = .ok (some c)) :
    ∃ l, web_scrap env doc term .MIXED (some ot) false mc = .ok l ∧
      ∀ p, p ∈ l ↔
        (c <+: p ∧ c ≠ p ∧ (nodeAt? doc p).isSome = true ∧
          selMatchesAt doc (env.parseSel ot) p = true ∧
          strContains (term.map Char.toLower) ((textAt doc p).map Char.toLower) = true) := by
  obtain ⟨L, hL, hh⟩ := topContainer_ok h
  refine ⟨(selectIn doc c (env.parseSel ot)).filter
      (fun p => strContains (term.map Char.toLower) ((textAt doc p).map Char.toLower)),
    ?_, ?_⟩
  · simp [web_scrap, hL, hh]
  · intro p
    rw [List.mem_filter, mem_selectIn]
    tauto

/-- Witness for C5: in `docE` the term `"ok"` with secondary selector
`.tsay` matches exactly the caption reading `"OK"`. -/
theorem claim_C5_witness :
    topContainer envW docE (some dfltMC) = .ok (some [0]) ∧
      ∃ l, web_scrap envW docE "ok".data .MIXED (some ".tsay".data) false
          (some dfltMC) = .ok l ∧
        ∀ p, p ∈ l ↔
          (([0] : Path) <+: p ∧ ([0] : Path) ≠ p ∧ (nodeAt? docE p).isSome = true ∧
            selMatchesAt docE (envW.parseSel ".tsay".data) p = true ∧
            strContains (("ok".data).map Char.toLower)
              ((textAt docE p).map Char.toLower) = true) :=
  ⟨by rfl, claim_C5 envW docE "ok".data ".tsay".data (some dfltMC) [0] (by rfl)⟩

/-! ## The enumerate-filter dance of `filter_displayed_elements` is a plain
filter -/

theorem enumFrom_filter_snd {α : Type} (P : α → Bool) :
    ∀ (n : Nat) (l : List α),
      ((List.enumFrom n l).filter (fun x => P x.2)).map (fun x => x.2) = l.filter P
  | _, [] => rfl
  | n, a :: l => by
    simp only [List.enumFrom, List.filter_cons]
    cases hpa : P a <;> simp [enumFrom_filter_snd P (n + 1) l, hpa, List.filter_cons]

theorem enum_filter_dance {α : Type} (P : α → Bool) (l : List α) :
    ((l.enum.filter (fun x =>
      ((l.enum.filter (fun y => P y.2)).map (fun y => y.1)).contains x.1)).map
      (fun x => x.2)) = l.filter P := by
  have hcongr : ∀ x ∈ l.enum,
      (((l.enum.filter (fun y => P y.2)).map (fun y => y.1)).contains x.1) = P x.2 := by
    rintro ⟨j, a⟩ hx
    have hja : l[j]? = some a := List.mk_mem_enum_iff_getElem?.mp hx
    have hiff : (((l.enum.filter (fun y => P y.2)).map (fun y => y.1)).contains j) = true ↔
        P a = true := by
      rw [List.contains_iff_exists_mem_beq]
      constructor
      · rintro ⟨i, hi, hbeq⟩
        have hij : j = i := by simpa using hbeq
        obtain ⟨y, hy, hyj⟩ := List.mem_map.mp hi
        obtain ⟨hymem, hyP⟩ := List.mem_filter.mp hy
        have hyy : l[y.1]? = some y.2 := List.mem_enum_iff_getElem?.mp hymem
        rw [hyj, ← hij, hja] at hyy
        have hay : a = y.2 := by injection hyy
        rw [hay]
        exact hyP
      · intro hpa
        refine ⟨j, ?_, by simp⟩
        exact List.mem_map.mpr ⟨(j, a), List.mem_filter.mpr ⟨hx, hpa⟩, rfl⟩
    cases hb : (((l.enum.filter (fun y => P y.2)).map (fun y => y.1)).contains j) <;>
      cases hpa : P a <;> simp_all
    obtain ⟨x, hx2, hPx⟩ := hb
    rw [hiff x hx2] at hPx
    exact Bool.false_ne_true hPx
  rw [List.filter_congr hcongr]
  exact enumFrom_filter_snd P 0 l

theorem filter_displayed_eq (env : Env) (doc : DomNode) (elements : List Path)
    (reverse : Bool) :
    filter_displayed_elements env doc elements reverse =
      zindex_sort doc (elements.filter env.displayed) reverse := by
  unfold filter_displayed_elements
  simp only [enum_filter_dance env.displayed elements]

/-- **C6** (corrected) — counterexample: `filter_displayed_elements` hands
the surviving elements to `zindex_sort` with its own `reverse` flag, whose
default is `False`; with the two displayed stacked divs of `docD`
(z-indexes 5 and 9) the result comes back in ascending z-index order, not
the descending container ranking the claim requires. -/
theorem claim_C6_counterexample :
    filter_displayed_elements envW docD [[0], [1]] false = .ok [[0], [1]] ∧
      zval docD [0] < zval docD [1] ∧
      envW.displayed [0] = true ∧ envW.displayed [1] = true :=
  ⟨by rfl, by decide, rfl, rfl⟩

/-- **C6** (amended): visibility filtering retains exactly the displayed
elements in their original relative order and re-sorts the survivors with
`zindex_sort` under the call's `reverse` flag: with `reverse=True` the
survivors come back in descending z-index order with ties keeping their
relative order (the §4.2 ranking), while with `reverse=False` — the
default — the order is ascending. -/
theorem claim_C6 (env : Env) (doc : DomNode) (elements : List Path)
    (h : ∀ p ∈ elements.filter env.displayed, (zkey doc p).isOk = true) :
    (∃ l', filter_displayed_elements env doc elements true = .ok l' ∧
      l'.Perm (elements.filter env.displayed) ∧
      List.Pairwise (fun a b => zval doc b ≤ zval doc a) l' ∧
      (∀ v : Int, l'.filter (fun p => decide (zval doc p = v)) =
        (elements.filter env.displayed).filter (fun p => decide (zval doc p = v)))) ∧
    (∃ l2, filter_displayed_elements env doc elements false = .ok l2 ∧
      l2.Perm (elements.filter env.displayed) ∧
      List.Pairwise (fun a b => zval doc a ≤ zval doc b) l2) := by
  have hall : (elements.filter env.displayed).all (fun p => (zkey doc p).isOk) = true := by
    rw [List.all_eq_true]
    exact h
  constructor
  · refine ⟨List.insertionSort (fun a b => zval doc b ≤ zval doc a)
        (elements.filter env.displayed), ?_, ?_, ?_, ?_⟩
    · rw [filter_displayed_eq]
      simp [zindex_sort, hall]
    · exact List.perm_insertionSort _ _
    · haveI : IsTotal Path (fun a b => zval doc b ≤ zval doc a) :=
        ⟨fun a b => le_total (zval doc b) (zval doc a)⟩
      haveI : IsTrans Path (fun a b => zval doc b ≤ zval doc a) :=
        ⟨fun _ _ _ hab hbc => le_trans hbc hab⟩
      exact List.sorted_insertionSort _ _
    · intro v
      refine filter_insertionSort _ _ (fun x hx y hxy => ?_) _
      simp only [decide_eq_true_eq] at hx
      simp only [decide_eq_false_iff_not]
      omega
  · refine ⟨List.insertionSort (fun a b => zval doc a ≤ zval doc b)
        (elements.filter env.displayed), ?_, ?_, ?_⟩
    · rw [filter_displayed_eq]
      simp [zindex_sort, hall]
    · exact List.perm_insertionSort _ _
    · haveI : IsTotal Path (fun a b => zval doc a ≤ zval doc b) :=
        ⟨fun a b => le_total (zval doc a) (zval doc b)⟩
      haveI : IsTrans Path (fun a b => zval doc a ≤ zval doc b) :=
        ⟨fun _ _ _ hab hbc => le_trans hab hbc⟩
      exact List.sorted_insertionSort _ _

/-- Witness for C6: of the three divs of `docD`, the one at `[2]` is not
displayed; the survivors `[0]` (z-index 5) and `[1]` (z-index 9) are
re-ranked in both directions. -/
theorem claim_C6_witness :
    (∀ p ∈ ([[0], [1], [2]] : List Path).filter envW.displayed,
        (zkey docD p).isOk = true) ∧
      ((∃ l', filter_displayed_elements envW docD [[0], [1], [2]] true = .ok l' ∧
        l'.Perm (([[0], [1], [2]] : List Path).filter envW.displayed) ∧
        List.Pairwise (fun a b => zval docD b ≤ zval docD a) l' ∧
        (∀ v : Int, l'.filter (fun p => decide (zval docD p = v)) =
          (([[0], [1], [2]] : List Path).filter envW.displayed).filter
            (fun p => decide (zval docD p = v)))) ∧
      (∃ l2, filter_displayed_elements envW docD [[0], [1], [2]] false = .ok l2 ∧
        l2.Perm (([[0], [1], [2]] : List Path).filter envW.displayed) ∧
        List.Pairwise (fun a b => zval docD a ≤ zval docD b) l2)) :=
  ⟨by decide, claim_C6 envW docD [[0], [1], [2]] (by decide)⟩

/-! ## Lemmas about the label-association resolver -/

theorem valid_prefix {doc : DomNode} {p q : Path} (hq : q <+: p)
    (hv : (nodeAt? doc p).isSome = true) : (nodeAt? doc q).isSome = true := by
  obtain ⟨t, rfl⟩ := hq
  rw [nodeAt?_append] at hv
  cases hqq : nodeAt? doc q with
  | none => rw [hqq] at hv; simp at hv
  | some n => simp

theorem divClimb_spec (doc : DomNode) :
    ∀ rp d : Path, divClimb doc rp = some d →
      d <+: rp.reverse ∧ isDivAt doc d = true ∧
        ∀ q, q <+: rp.reverse → d.length < q.length → isDivAt doc q = false := by
  intro rp
  induction rp with
  | nil =>
    intro d h
    unfold divClimb at h
    cases hn : nodeAt? doc [] with
    | none => rw [hn] at h; simp at h
    | some n =>
      rw [hn] at h
      cases n with
      | text s => simp at h
      | elem tg a cs =>
        dsimp only at h
        by_cases htg : tg = "div".data
        · rw [if_pos htg] at h
          injection h with hd
          subst hd
          refine ⟨List.prefix_refl _, by simp [isDivAt, hn, htg], ?_⟩
          intro q hq hlen
          rw [List.reverse_nil, List.prefix_nil] at hq
          subst hq
          simp at hlen
        · rw [if_neg htg] at h
          simp at h
  | cons i rest ih =>
    intro d h
    unfold divClimb at h
    cases hn : nodeAt? doc ((i :: rest).reverse) with
    | none => rw [hn] at h; simp at h
    | some n =>
      rw [hn] at h
      cases n with
      | text s =>
        dsimp only at h
        obtain ⟨h1, h2, h3⟩ := ih d h
        rw [List.reverse_cons] at hn ⊢
        refine ⟨h1.trans (List.prefix_append _ _), h2, ?_⟩
        intro q hq hlen
        rcases List.prefix_concat_iff.mp hq with rfl | hq2
        · simp [isDivAt, hn]
        · exact h3 q hq2 hlen
      | elem tg a cs =>
        dsimp only at h
        by_cases htg : tg = "div".data
        · rw [if_pos htg] at h
          injection h with hd
          subst hd
          rw [List.reverse_cons] at hn ⊢
          refine ⟨List.prefix_refl _, by simp [isDivAt, hn, htg], ?_⟩
          intro q hq hlen
          have hle := hq.length_le
          omega
        · rw [if_neg htg] at h
          obtain ⟨h1, h2, h3⟩ := ih d h
          rw [List.reverse_cons] at hn ⊢
          refine ⟨h1.trans (List.prefix_append _ _), h2, ?_⟩
          intro q hq hlen
          rcases List.prefix_concat_iff.mp hq with rfl | hq2
          · simp [isDivAt, hn, htg]
          · exact h3 q hq2 hlen

theorem divClimb_none (doc : DomNode) :
    ∀ rp : Path, (nodeAt? doc rp.reverse).isSome = true → divClimb doc rp = none →
      ∀ q, q <+: rp.reverse → isDivAt doc q = false := by
  intro rp
  induction rp with
  | nil =>
    intro hv h q hq
    rw [List.reverse_nil, List.prefix_nil] at hq
    subst hq
    unfold divClimb at h
    cases hn : nodeAt? doc [] with
    | none => simp [isDivAt, hn]
    | some n =>
      rw [hn] at h
      cases n with
      | text s => simp [isDivAt, hn]
      | elem tg a cs =>
        dsimp only at h
        by_cases htg : tg = "div".data
        · rw [if_pos htg] at h
          simp at h
        · simp [isDivAt, hn, htg]
  | cons i rest ih =>
    intro hv h q hq
    unfold divClimb at h
    cases hn : nodeAt? doc ((i :: rest).reverse) with
    | none => rw [hn] at hv; simp at hv
    | some n =>
      rw [hn] at h
      have hvr : (nodeAt? doc rest.reverse).isSome = true :=
        valid_prefix (by rw [List.reverse_cons]; exact List.prefix_append _ _) hv
      cases n with
      | text s =>
        dsimp only at h
        rw [List.reverse_cons] at hn hq
        rcases List.prefix_concat_iff.mp hq with rfl | hq2
        · simp [isDivAt, hn]
        · exact ih hvr h q hq2
      | elem tg a cs =>
        dsimp only at h
        by_cases htg : tg = "div".data
        · rw [if_pos htg] at h
          simp at h
        · rw [if_neg htg] at h
          rw [List.reverse_cons] at hn hq
          rcases List.prefix_concat_iff.mp hq with rfl | hq2
          · simp [isDivAt, hn, htg]
          · exact ih hvr h q hq2

theorem ffdp_spec {doc : DomNode} {p d : Path}
    (h : find_first_div_parent doc p = some d) :
    d <+: p ∧ isDivAt doc d = true ∧
      ∀ q, q <+: p → d.length < q.length → isDivAt doc q = false := by
  have hs := divClimb_spec doc p.reverse d (by simpa [find_first_div_parent] using h)
  simpa [List.reverse_reverse] using hs

theorem ffdp_none {doc : DomNode} {p : Path}
    (hv : (nodeAt? doc p).isSome = true)
    (h : find_first_div_parent doc p = none) :
    ∀ q, q <+: p → isDivAt doc q = false := by
  have hs := divClimb_none doc p.reverse
    (by simpa [List.reverse_reverse] using hv)
    (by simpa [find_first_div_parent] using h)
  simpa [List.reverse_reverse] using hs

theorem firstInputIdx_spec :
    ∀ (cs : List DomNode) (j k : Nat), firstInputIdx j cs = some k →
      j ≤ k ∧ (∃ c, cs[k - j]? = some c ∧ isInputNode c = true) ∧
        ∀ m c2, j ≤ m → m < k → cs[m - j]? = some c2 → isInputNode c2 = false := by
  intro cs
  induction cs with
  | nil => intro j k h; simp [firstInputIdx] at h
  | cons c rest ih =>
    intro j k h
    unfold firstInputIdx at h
    by_cases hc : isInputNode c = true
    · rw [if_pos hc] at h
      injection h with hk
      subst hk
      refine ⟨le_refl _, ⟨c, by simp, hc⟩, ?_⟩
      intro m c2 hm1 hm2 _
      omega
    · rw [if_neg hc] at h
      obtain ⟨h1, ⟨c2, hc2, hinp⟩, h3⟩ := ih (j + 1) k h
      refine ⟨by omega, ⟨c2, ?_, hinp⟩, ?_⟩
      · rw [show k - j = (k - (j + 1)) + 1 from by omega]
        simpa using hc2
      · intro m cm hm1 hm2 hcm
        by_cases hmj : m = j
        · subst hmj
          simp only [Nat.sub_self, List.getElem?_cons_zero, Option.some.injEq] at hcm
          rw [← hcm]
          exact Bool.eq_false_iff.mpr hc
        · rw [show m - j = (m - (j + 1)) + 1 from by omega] at hcm
          simp only [List.getElem?_cons_succ] at hcm
          exact h3 m cm (by omega) hm2 hcm

theorem fnsi_spec {doc : DomNode} {p s : Path}
    (h : findNextSiblingInput doc p = some s) :
    ∃ par i j, p = par ++ [i] ∧ s = par ++ [j] ∧ i < j ∧ isInputAt doc s = true ∧
      ∀ m, i < m → m < j → isInputAt doc (par ++ [m]) = false := by
  induction p using List.reverseRecOn with
  | nil => simp [findNextSiblingInput] at h
  | append_singleton ys y _ =>
    unfold findNextSiblingInput at h
    rw [List.getLast?_concat] at h
    dsimp only at h
    rw [List.dropLast_concat] at h
    cases hpar : nodeAt? doc ys with
    | none => rw [hpar] at h; simp at h
    | some parn =>
      rw [hpar] at h
      dsimp only at h
      cases hfi : firstInputIdx (y + 1) ((DomNode.childrenOf parn).drop (y + 1)) with
      | none => rw [hfi] at h; simp at h
      | some j0 =>
        rw [hfi] at h
        have hs2 : ys ++ [j0] = s := by simpa using h
        subst hs2
        obtain ⟨hj1, ⟨c, hc, hinp⟩, hnone⟩ := firstInputIdx_spec _ _ _ hfi
        refine ⟨ys, y, j0, rfl, rfl, by omega, ?_, ?_⟩
        · have hidx : (DomNode.childrenOf parn)[j0]? = some c := by
            rw [List.getElem?_drop,
              show (y + 1) + (j0 - (y + 1)) = j0 from by omega] at hc
            exact hc
          have hnode : nodeAt? doc (ys ++ [j0]) = some c := by
            rw [nodeAt?_append, hpar]
            simp [nodeAt?, hidx]
          simp [isInputAt, hnode, hinp]
        · intro m hm1 hm2
          cases hcm : (DomNode.childrenOf parn)[m]? with
          | none =>
            have hnode : nodeAt? doc (ys ++ [m]) = none := by
              rw [nodeAt?_append, hpar]
              simp [nodeAt?, hcm]
            simp [isInputAt, hnode]
          | some c2 =>
            have hnode : nodeAt? doc (ys ++ [m]) = some c2 := by
              rw [nodeAt?_append, hpar]
              simp [nodeAt?, hcm]
            have hdrop : ((DomNode.childrenOf parn).drop (y + 1))[m - (y + 1)]? =
                some c2 := by
              rw [List.getElem?_drop,
                show (y + 1) + (m - (y + 1)) = m from by omega]
              exact hcm
            have hin := hnone m c2 (by omega) hm2 hdrop
            simp [isInputAt, hnode, hin]

theorem head?_map_eq {α β : Type} (f : α → β) (l : List α) :
    (l.map f).head? = l.head?.map f := by
  cases l <;> rfl

theorem mem_of_head?_eq {α : Type} {l : List α} {a : α} (h : l.head? = some a) :
    a ∈ l := by
  cases l with
  | nil => simp at h
  | cons x xs =>
    rw [List.head?_cons] at h
    injection h with hx
    exact hx ▸ List.mem_cons_self x xs

theorem labelTextMatches_valid {doc : DomNode} {container m : Path} {label : Str}
    (h : m ∈ labelTextMatches doc container label) :
    (nodeAt? doc m).isSome = true := by
  unfold labelTextMatches at h
  cases hsc : nodeAt? doc container <;> rw [hsc] at h
  · simp at h
  · obtain ⟨hmem, _⟩ := List.mem_filter.mp h
    obtain ⟨q, hq, rfl⟩ := List.mem_map.mp hmem
    obtain ⟨hq1, _⟩ := List.mem_filter.mp hq
    rw [nodeAt?_append]
    simp only [hsc]
    simpa using (mem_allPaths q _).mp hq1

/-! ## String-splitting lemmas for `search_zindex` -/

theorem findSplit_here {sep s : Str} (hne : sep ≠ [])
    (h : sep.isPrefixOf s = true) :
    findSplit sep s = some ([], s.drop sep.length) := by
  cases s with
  | nil =>
    rw [List.isPrefixOf_iff_prefix, List.prefix_nil] at h
    exact absurd h hne
  | cons c rest =>
    unfold findSplit
    rw [if_pos h]

theorem findSplit_skip {sep : Str} {c : Char} {x : Str}
    (h : sep.isPrefixOf (c :: x) = false) :
    findSplit sep (c :: x) = (findSplit sep x).map (fun ab => (c :: ab.1, ab.2)) := by
  have step : findSplit sep (c :: x) =
      (if sep.isPrefixOf (c :: x) = true then some ([], (c :: x).drop sep.length)
       else
         match findSplit sep x with
         | some (a, b) => some (c :: a, b)
         | none => none) := rfl
  rw [step, if_neg (by simp [h])]
  cases hf : findSplit sep x with
  | none => rfl
  | some ab => cases ab; rfl

theorem pySplitHead_here {sep s : Str} (hne : sep ≠ [])
    (h : sep.isPrefixOf s = true) : pySplitHead sep s = [] := by
  unfold pySplitHead
  rw [findSplit_here hne h]

theorem pySplitHead_skip {sep : Str} {c : Char} {x : Str}
    (h : sep.isPrefixOf (c :: x) = false) :
    pySplitHead sep (c :: x) = c :: pySplitHead sep x := by
  unfold pySplitHead
  rw [findSplit_skip h]
  cases hf : findSplit sep x with
  | none => rfl
  | some ab => cases ab; rfl

theorem not_prefix_of_semiFree {sep xs suf : Str} (hsep : ';' ∉ sep)
    (hpre : ¬sep <+: xs) : sep.isPrefixOf (xs ++ ';' :: suf) = false := by
  by_contra hcon
  have h : sep <+: xs ++ ';' :: suf := by
    rw [← List.isPrefixOf_iff_prefix]
    simpa using hcon
  have h2 : xs ++ [';'] <+: xs ++ ';' :: suf := by
    rw [show xs ++ ';' :: suf = (xs ++ [';']) ++ suf from by simp]
    exact List.prefix_append _ _
  rcases List.prefix_or_prefix_of_prefix h h2 with h3 | h3
  · rcases List.prefix_concat_iff.mp h3 with h4 | h4
    · rw [h4] at hsep
      exact hsep (by simp)
    · exact hpre h4
  · exact hsep (h3.subset (by simp))

theorem head_head_extract (suf : Str) :
    ∀ ds : Str, ';' ∉ ds → ¬zMarker <:+: ds →
      pySplitHead (";".data) (pySplitHead zMarker (ds ++ ';' :: suf)) = ds
  | [], _, _ => by
    rw [List.nil_append,
      pySplitHead_skip (show zMarker.isPrefixOf (';' :: suf) = false from rfl)]
    refine pySplitHead_here (by decide) (List.isPrefixOf_iff_prefix.mpr ?_)
    rw [show (";".data : Str) = [';'] from by decide]
    exact ⟨pySplitHead zMarker suf, rfl⟩
  | d :: ds, hsemi, hmark => by
    have hd : d ≠ ';' := fun h => hsemi (by simp [h])
    have hsemi2 : ';' ∉ ds := fun h => hsemi (by simp [h])
    have hmark2 : ¬zMarker <:+: ds := fun h => hmark (List.infix_cons h)
    have hnp : zMarker.isPrefixOf ((d :: ds) ++ ';' :: suf) = false := by
      apply not_prefix_of_semiFree (by decide)
      intro hcon
      exact hmark hcon.isInfix
    rw [List.cons_append] at hnp
    rw [List.cons_append, pySplitHead_skip hnp]
    have hdsep : (";".data).isPrefixOf (d :: pySplitHead zMarker (ds ++ ';' :: suf)) =
        false := by
      simp only [show (";".data : Str) = [';'] from rfl, List.isPrefixOf, Bool.and_true,
        beq_eq_false_iff_ne]
      exact Ne.symm hd
    rw [pySplitHead_skip hdsep]
    rw [head_head_extract suf ds hsemi2 hmark2]

theorem seg1_extract (ds suf : Str) (hsemi : ';' ∉ ds) (hmark : ¬zMarker <:+: ds) :
    pySplitHead (";".data) (pySplitSeg1 zMarker (zMarker ++ (ds ++ ';' :: suf))) = ds := by
  unfold pySplitSeg1
  rw [findSplit_here (by decide)
    (List.isPrefixOf_iff_prefix.mpr (List.prefix_append _ _))]
  simp only [List.drop_left]
  exact head_head_extract suf ds hsemi hmark

/-- **C2** (corrected) — counterexample: an element styled
`z-index:abc;` makes `search_zindex` raise a `ValueError` from `int()`
instead of yielding the default 0; the claim says an unparsable marker text
gives 0 and never raises. -/
theorem claim_C2_counterexample :
    search_zindex elemBadZ = .error valueErrorMsg ∧
      ∀ v : Int, search_zindex elemBadZ ≠ .ok v := by
  refine ⟨rfl, fun v h => ?_⟩
  rw [show search_zindex elemBadZ = .error valueErrorMsg from rfl] at h
  exact Except.noConfusion h

/-- **C2** (amended): the derived z-index is 0 when the element is a text
node, has no `style` attribute, or its style has no `z-index:` marker; when
the marker is present, the segment up to the next `;` (bounded also by a
second marker, per Python `split`) is stripped and parsed by `int()` — a
parsable segment yields its integer value, while an unparsable one makes
`search_zindex` raise `ValueError` instead of returning 0. -/
theorem claim_C2 :
    (∀ s, search_zindex (.text s) = .ok 0) ∧
    (∀ tag attrs children, lookupAttr attrs ("style".data) = none →
      search_zindex (.elem tag attrs children) = .ok 0) ∧
    (∀ tag attrs children style, lookupAttr attrs ("style".data) = some style →
      strContains zMarker style = false →
      search_zindex (.elem tag attrs children) = .ok 0) ∧
    (∀ tag children ds suf v, ';' ∉ ds → ¬zMarker <:+: ds →
      pyIntParse (pyStrip ds) = some v →
      search_zindex
        (.elem tag [("style".data, zMarker ++ (ds ++ ';' :: suf))] children) = .ok v) ∧
    (∀ tag children ds suf, ';' ∉ ds → ¬zMarker <:+: ds →
      pyIntParse (pyStrip ds) = none →
      search_zindex
        (.elem tag [("style".data, zMarker ++ (ds ++ ';' :: suf))] children) =
        .error valueErrorMsg) := by
  have hlook : ∀ st : Str, lookupAttr [("style".data, st)] ("style".data) = some st := by
    intro st
    simp [lookupAttr]
  have hinf : ∀ x : Str, strContains zMarker (zMarker ++ x) = true := by
    intro x
    unfold strContains
    rw [decide_eq_true_eq]
    exact (List.prefix_append _ _).isInfix
  refine ⟨fun s => rfl, ?_, ?_, ?_, ?_⟩
  · intro tag attrs children h
    simp [search_zindex, h]
  · intro tag attrs children style h hmk
    simp [search_zindex, h, hmk]
  · intro tag children ds suf v hsemi hmark hparse
    simp only [search_zindex, hlook, hinf, if_true]
    rw [seg1_extract ds suf hsemi hmark, hparse]
  · intro tag children ds suf hsemi hmark hparse
    simp only [search_zindex, hlook, hinf, if_true]
    rw [seg1_extract ds suf hsemi hmark, hparse]

/-- Witness for C2: the well-formed style `z-index: 42 ;color:red` parses
to 42. -/
theorem claim_C2_witness :
    (';' ∉ (" 42 ".data : Str)) ∧ (¬zMarker <:+: (" 42 ".data : Str)) ∧
      pyIntParse (pyStrip (" 42 ".data)) = some 42 ∧
      search_zindex (.elem "div".data
        [("style".data, zMarker ++ ((" 42 ".data : Str) ++ ';' :: "color:red".data))] []) =
        .ok 42 :=
  ⟨by decide, by decide, by rfl,
    claim_C2.2.2.2.1 "div".data [] " 42 ".data "color:red".data 42
      (by decide) (by decide) (by rfl)⟩

/-- **C4** (corrected) — counterexample: in `docA`, the label text
`"Name "` sits in a `div` block whose following siblings are a `span` and
then an `input`.  The immediate next sibling of the block is the `span`,
not an input, so the claim requires the empty result; the code instead
returns the `input` at `[0, 2]`, because `find_next_sibling("input")` scans
all following siblings for the first input rather than inspecting only the
immediate one. -/
theorem claim_C4_counterexample :
    find_label_element docA [0] "Name".data = [[0, 2]] ∧
      find_first_div_parent docA [0, 0, 0] = some [0, 0] ∧
      nodeAt? docA [0, 1] = some (.elem "span".data [] []) ∧
      isInputAt docA [0, 1] = false ∧ isInputAt docA [0, 2] = true :=
  ⟨by rfl, by rfl, by rfl, by rfl, by rfl⟩

/-- **C4** (amended): label lookup takes the first text node matching the
label pattern, climbs to its nearest `div` ancestor, and returns the
**first following sibling** of that ancestor that is an `input` tag — not
necessarily the immediate next sibling.  When no text matches, no `div`
ancestor exists (no ancestor-or-self of the matched text is a `div`), or no
following `input` sibling exists, the result is the empty list and no error
is raised (`find_label_element` is total). -/
theorem claim_C4 (doc : DomNode) (container : Path) (label : Str) :
    (labelTextMatches doc container label = [] →
      find_label_element doc container label = []) ∧
    (∀ m, (labelTextMatches doc container label).head? = some m →
      find_first_div_parent doc m = none →
        find_label_element doc container label = [] ∧
          ∀ q, q <+: m → isDivAt doc q = false) ∧
    (∀ m d, (labelTextMatches doc container label).head? = some m →
      find_first_div_parent doc m = some d →
      findNextSiblingInput doc d = none →
        find_label_element doc container label = []) ∧
    (∀ p, p ∈ find_label_element doc container label →
      ∃ m d, (labelTextMatches doc container label).head? = some m ∧
        isLabelTextAt doc label m = true ∧
        d <+: m ∧ isDivAt doc d = true ∧
        (∀ q, q <+: m → d.length < q.length → isDivAt doc q = false) ∧
        ∃ par i j, d = par ++ [i] ∧ p = par ++ [j] ∧ i < j ∧
          isInputAt doc p = true ∧
          ∀ k2, i < k2 → k2 < j → isInputAt doc (par ++ [k2]) = false) := by
  refine ⟨?_, ?_, ?_, ?_⟩
  · intro hm
    unfold find_label_element
    rw [hm]
    simp
  · intro m hm hffdp
    constructor
    · unfold find_label_element
      rw [head?_map_eq, hm]
      simp [hffdp]
    · exact ffdp_none (labelTextMatches_valid (mem_of_head?_eq hm)) hffdp
  · intro m d hm hffdp hsib
    unfold find_label_element
    rw [head?_map_eq, hm]
    simp [hffdp, hsib]
  · intro p hp
    unfold find_label_element at hp
    rw [head?_map_eq] at hp
    cases hm : (labelTextMatches doc container label).head? with
    | none => rw [hm] at hp; simp at hp
    | some m =>
      rw [hm] at hp
      dsimp only [Option.map] at hp
      cases hffdp : find_first_div_parent doc m with
      | none => rw [hffdp] at hp; simp at hp
      | some d =>
        rw [hffdp] at hp
        dsimp only at hp
        cases hsib : findNextSiblingInput doc d with
        | none => rw [hsib] at hp; simp at hp
        | some sib =>
          rw [hsib] at hp
          obtain rfl : p = sib := by simpa using hp
          obtain ⟨h1, h2, h3⟩ := ffdp_spec hffdp
          obtain ⟨par, i, j, hpd, hs, hij, hinp, hmin⟩ := fnsi_spec hsib
          exact ⟨m, d, rfl, labelTextMatches_mem (mem_of_head?_eq hm), h1, h2, h3,
            par, i, j, hpd, hs, hij, hinp, hmin⟩

/-- Witness for C4: the input at `[0, 2]` returned for label `"Name"` in
`docA` is the first following `input` sibling of the `div` block `[0, 0]`
around the matched text `[0, 0, 0]`. -/
theorem claim_C4_witness :
    (([0, 2] : Path) ∈ find_label_element docA [0] "Name".data) ∧
      ∃ m d, (labelTextMatches docA [0] "Name".data).head? = some m ∧
        isLabelTextAt docA "Name".data m = true ∧
        d <+: m ∧ isDivAt docA d = true ∧
        (∀ q, q <+: m → d.length < q.length → isDivAt docA q = false) ∧
        ∃ par i j, d = par ++ [i] ∧ ([0, 2] : Path) = par ++ [j] ∧ i < j ∧
          isInputAt docA [0, 2] = true ∧
          ∀ k2, i < k2 → k2 < j → isInputAt docA (par ++ [k2]) = false :=
  ⟨by decide, (claim_C4 docA [0] "Name".data).2.2.2 [0, 2] (by decide)⟩

end Tir
